import Mathlib

/-!
Shallow embedding of the external-link status checker of the wiki-scripts
repository (src/ws/checkers/ExtlinkStatusChecker.py).

The checker keeps three cache partitions (a set of valid URLs, a dict from
URL to invalid-status value, a set of indeterminate URLs) and a per-run list
of date parameters.  `check_url` consults the caches and otherwise classifies
the outcome of a single HTTP GET; `prepare_url` normalizes and filters raw
URLs; `check_extlink_status` drives both and updates the adjacent
broken-link marker of the checked link.

The network is modelled by passing the outcome of the `session.get` call as
an explicit argument (`NetOutcome`); Python's exception dispatch over the
requests exception hierarchy is most-specific-first, so the concrete outcome
classes are mutually exclusive constructors here.  The markup layer is
modelled by passing the marker adjacent to the link (if any) in and out as
an `Option DeadLinkFlag`.
-/

/-- Result type of urllib3.util.url.parse_url: a named tuple of optional
components.  A component absent from the URL text is None (here `none`); an
empty fragment produced by a trailing hash sign is the empty string
(`some ""`), which Python distinguishes from None. -/
structure Url where
  scheme : Option String
  auth : Option String
  host : Option String
  port : Option Nat
  path : Option String
  query : Option String
  fragment : Option String
deriving DecidableEq, Repr

/-- Values stored in `cache_invalid_urls`: either a status text (a Python
str such as "SSL error") or a numeric HTTP status code (a Python int). -/
inductive StatusVal where
  | str (s : String)
  | code (n : Nat)
deriving DecidableEq, Repr

/-- Python `str()` applied to a cached invalid-status value, as used by the
marker-status comparison in `check_extlink_status`. -/
def StatusVal.toStr : StatusVal → String
  | .str s => s
  | .code n => toString n

/-- Outcome of the `self.session.get` call inside `check_url`.  The
constructors are mutually exclusive: Python dispatches on the most specific
exception class first (SSLError before ConnectionError before the generic
RequestException; TooManyRedirects is a separate subclass), so each concrete
failure belongs to exactly one constructor.  A connection timeout raises a
ConnectTimeout, which is a ConnectionError, hence `connectionError` here; a
read timeout is only a RequestException, hence `requestException`. -/
inductive NetOutcome where
  | response (status_code : Nat)
  | sslError
  | connectionError (msg : String)
  | tooManyRedirects
  | requestException
deriving DecidableEq, Repr

/-- The Dead link marker template adjacent to a link: its optional `status`
named parameter and its three positional date parameters. -/
structure DeadLinkFlag where
  status : Option String
  p1 : String
  p2 : String
  p3 : String
deriving DecidableEq, Repr

/-- The year, month and day taken from `datetime.datetime.utcnow()` at
checker construction. -/
structure RunDate where
  year : Nat
  month : Nat
  day : Nat
deriving DecidableEq, Repr

/-- Python format string `"\x7b:02d\x7d".format(i)`: decimal, left-padded
with a zero to at least two characters. -/
def format02d (n : Nat) : String :=
  if n < 10 then "0" ++ toString n else toString n

/-- The mutable state of an ExtlinkStatusChecker instance: the three cache
partitions and the per-run date parameters (`deadlink_params`). -/
structure CheckerState where
  cache_valid_urls : List Url
  cache_invalid_urls : List (Url × StatusVal)
  cache_indeterminate_urls : List Url
  deadlink_params : String × String × String
deriving DecidableEq, Repr

/-- `__init__`: all three cache partitions start empty and the deadlink
parameters are the zero-padded year, month and day of the construction
time. -/
def initState (now : RunDate) : CheckerState :=
  { cache_valid_urls := []
    cache_invalid_urls := []
    cache_indeterminate_urls := []
    deadlink_params := (format02d now.year, format02d now.month, format02d now.day) }

/-- Python dict lookup on the association-list model of
`cache_invalid_urls`. -/
def alookup : List (Url × StatusVal) → Url → Option StatusVal
  | [], _ => none
  | (k, v) :: rest, u => if u = k then some v else alookup rest u

/-- Python dict assignment `d[k] = v`: replace the binding of `k` if
present, otherwise append a fresh binding. -/
def alistInsert : List (Url × StatusVal) → Url → StatusVal → List (Url × StatusVal)
  | [], k, v => [(k, v)]
  | (k', v') :: rest, k, v =>
    if k = k' then (k, v) :: rest else (k', v') :: alistInsert rest k v

/-- Python `set.add`: insert an element unless already present. -/
def insertSet (l : List Url) (u : Url) : List Url :=
  if u ∈ l then l else u :: l

/-- Whether the first character list is an initial segment of the second. -/
def startsChars : List Char → List Char → Bool
  | [], _ => true
  | _ :: _, [] => false
  | a :: as, b :: bs => a == b && startsChars as bs

/-- Whether the first character list occurs contiguously inside the
second (Python's `in` operator on strings). -/
def hasSubChars (pat : List Char) : List Char → Bool
  | [] => startsChars pat []
  | c :: rest => startsChars pat (c :: rest) || hasSubChars pat rest

/-- Whether the character list ends with the given ending (Python
`str.endswith`). -/
def endsChars (tail l : List Char) : Bool :=
  startsChars tail.reverse l.reverse

/-- The substring that `check_url` looks for in a lowercased
ConnectionError message to recognize a DNS resolution failure. -/
def dnsPat : List Char := "name or service not known".toList

/-- The try/except body of `check_url` together with the status-code
mapping that follows it: how an uncached URL's GET outcome is classified
and written into the caches. -/
def classify_outcome (st : CheckerState) (url : Url) :
    NetOutcome → Option Bool × CheckerState
    | NetOutcome.sslError =>
      (some false,
        { st with cache_invalid_urls :=
            alistInsert st.cache_invalid_urls url (StatusVal.str "SSL error") })
    | NetOutcome.connectionError msg =>
      if hasSubChars dnsPat (msg.toList.map Char.toLower) then
        (some false,
          { st with cache_invalid_urls :=
              alistInsert st.cache_invalid_urls url (StatusVal.str "domain name not resolved") })
      else
        (none, st)
    | NetOutcome.tooManyRedirects =>
      (some false,
        { st with cache_invalid_urls :=
            alistInsert st.cache_invalid_urls url (StatusVal.str "too many redirects") })
    | NetOutcome.requestException => (none, st)
    | NetOutcome.response code =>
      if 200 ≤ code ∧ code < 300 then
        (some true, { st with cache_valid_urls := insertSet st.cache_valid_urls url })
      else if 400 ≤ code ∧ code < 500 then
        (some false,
          { st with cache_invalid_urls :=
              alistInsert st.cache_invalid_urls url (StatusVal.code code) })
      else
        (none, { st with cache_indeterminate_urls := insertSet st.cache_indeterminate_urls url })

/-- `check_url`: consult the cache partitions in order (valid, invalid,
indeterminate) and return on the first hit without touching the state; on a
miss, perform the GET (its outcome is the `net` argument) and classify via
`classify_outcome`.  Returns the Python return value (True / False / None
as `Option Bool`) together with the updated state. -/
def check_url (st : CheckerState) (url : Url) (net : NetOutcome) :
    Option Bool × CheckerState :=
  if url ∈ st.cache_valid_urls then (some true, st)
  else if (alookup st.cache_invalid_urls url).isSome then (some false, st)
  else if url ∈ st.cache_indeterminate_urls then (none, st)
  else classify_outcome st url net

/-- Python `str.split` on a dot: splits into the (possibly empty) chunks
between dots. -/
def splitDots : List Char → List (List Char)
  | [] => [[]]
  | c :: rest =>
    if c = '.' then [] :: splitDots rest
    else
      match splitDots rest with
      | [] => [[c]]
      | h :: t => (c :: h) :: t

/-- One octet of a dotted-quad IPv4 address as accepted by Python's
ipaddress module: one to three decimal digits, no leading zero, value at
most 255. -/
def parseOctet (s : List Char) : Option Nat :=
  if s = [] then none
  else if ¬ s.all Char.isDigit then none
  else if 3 < s.length then none
  else if 1 < s.length ∧ s.head? = some '0' then none
  else
    let n := s.foldl (fun acc c => acc * 10 + (c.toNat - 48)) 0
    if n ≤ 255 then some n else none

/-- Python `ipaddress.ip_address` restricted to IPv4 (an IPv6 address is
never a member of the IPv4 network 127.0.0.0/8, so only the IPv4 parse
matters for the loopback check). -/
def parseIPv4 (host : String) : Option (Nat × Nat × Nat × Nat) :=
  match (splitDots host.toList).map parseOctet with
  | [some a, some b, some c, some d] => some (a, b, c, d)
  | _ => none

/-- The loopback test of `prepare_url`: the host parses as an IPv4 address
lying in `ipaddress.ip_network("127.0.0.0/8")`, i.e. its first octet is
127. -/
def isLoopback (host : String) : Bool :=
  match parseIPv4 host with
  | some (a, _, _, _) => a == 127
  | none => false

/-- The suffix compared against by `url.host.endswith(".localhost")`. -/
def lhLoc : List Char := ".localhost".toList

/-- Python truthiness of the optional host component: `not url.host` holds
when the host is None or the empty string. -/
def hostFalsy : Option String → Bool
  | none => true
  | some h => h == ""

/-- The fragment-dropping step of `prepare_url`: when the fragment is
truthy (present and non-empty), the source rebuilds the URL text via
`url.url`, removes everything from the LAST hash sign on
(`rsplit("#", maxsplit=1)[0]`) and reparses.  Since the non-fragment
components contain no hash sign, reparsing leaves them unchanged and the
new fragment is the old one with its last hash-separated chunk removed, or
absent when the old fragment contained no hash sign at all.  A falsy
fragment (None or empty) is kept as is. -/
def stripFragment (u : Url) : Url :=
  match u.fragment with
  | none => u
  | some f =>
    if f = "" then u
    else if '#' ∈ f.toList then
      let g := String.mk (((f.toList.reverse.dropWhile (fun c => c != '#')).drop 1).reverse)
      { u with fragment := some g }
    else { u with fragment := none }

/-- `prepare_url` from the point where the URL text has been handed to
`urllib3.util.url.parse_url`: the argument is the parse result (`none` for
a LocationParseError).  The markup-splitting and HTML-entity steps before
the parse only rewrite the URL text and are outside this model.  The checks
run in source order: scheme, empty host, dotless host, localhost, loopback
address; then the fragment is dropped. -/
def prepare_url (parsed : Option Url) : Option Url :=
  match parsed with
  | none => none
  | some url =>
    if ¬ (url.scheme = some "http" ∨ url.scheme = some "https") then none
    else if hostFalsy url.host then none
    else
      let h := url.host.getD ""
      if ¬ '.' ∈ h.toList then none
      else if h = "localhost" ∨ endsChars lhLoc h.toList then none
      else if isLoopback h then none
      else some (stripFragment url)

/-- `ensure_flagged_by_template(..., overwrite_parameters=False)`: keep an
existing adjacent flag untouched; otherwise create a fresh flag carrying
the given positional date parameters and no status parameter. -/
def ensure_flagged (existing : Option DeadLinkFlag) (p : String × String × String) :
    DeadLinkFlag :=
  match existing with
  | some f => f
  | none => { status := none, p1 := p.1, p2 := p.2.1, p3 := p.2.2 }

/-- The Invalid branch of `check_extlink_status`: flag the link without
overwriting parameters, then rewrite status and the three date parameters
unless the recorded status already equals the stringified new reason. -/
def flag_invalid (existing : Option DeadLinkFlag) (reason : StatusVal)
    (p : String × String × String) : DeadLinkFlag :=
  let flag := ensure_flagged existing p
  let overwrite : Bool :=
    match flag.status with
    | some s => if s = reason.toStr then false else true
    | none => true
  if overwrite then
    { status := some reason.toStr, p1 := p.1, p2 := p.2.1, p3 := p.2.2 }
  else flag

/-- `check_extlink_status`: normalize the link's URL; on rejection do
nothing; otherwise check it and either unflag the link (valid), flag it
with the cached invalid reason (invalid), or leave the markup alone
(indeterminate).  The second component is the marker adjacent to the link
after the call (`none` when absent).  On the invalid path the source
indexes `self.cache_invalid_urls[url]` directly; a KeyError is impossible
there because a False result always leaves the URL in that dict, so the
`getD` default is never used. -/
def check_extlink_status (st : CheckerState) (parsed : Option Url)
    (existingFlag : Option DeadLinkFlag) (net : NetOutcome) :
    CheckerState × Option DeadLinkFlag :=
  match prepare_url parsed with
  | none => (st, existingFlag)
  | some url =>
    match check_url st url net with
    | (some true, st2) => (st2, none)
    | (some false, st2) =>
      let reason := (alookup st2.cache_invalid_urls url).getD (StatusVal.str "")
      (st2, some (flag_invalid existingFlag reason st2.deadlink_params))
    | (none, st2) => (st2, existingFlag)

/-- A whole run: fold `check_extlink_status` over a list of links, each
given as (parse result, adjacent marker, network outcome). -/
def runChecker (st : CheckerState) :
    List (Option Url × Option DeadLinkFlag × NetOutcome) → CheckerState
  | [] => st
  | e :: rest => runChecker (check_extlink_status st e.1 e.2.1 e.2.2).1 rest

/-- Disjointness of the valid and invalid cache partitions. -/
def CacheDisjoint (st : CheckerState) : Prop :=
  ∀ u : Url, u ∈ st.cache_valid_urls → alookup st.cache_invalid_urls u = none

/-- A fragment component is plain when it is absent, or non-empty and free
of hash signs (so that the fragment-dropping step removes it entirely). -/
def plainFrag : Option String → Prop
  | none => True
  | some f => f ≠ "" ∧ ¬ '#' ∈ f.toList

/-- Example date used by the witnesses. -/
def exDate : RunDate := { year := 2020, month := 2, day := 20 }

/-- Example accepted URL used by the witnesses. -/
def exUrl : Url :=
  { scheme := some "http", auth := none, host := some "example.com",
    port := none, path := some "/x", query := none, fragment := none }

/-- Example rejected URL (unsupported scheme) used by the witnesses. -/
def ftpUrl : Url := { exUrl with scheme := some "ftp" }

/-- Example URL with an empty (but present) fragment, as produced by a URL
text ending in a hash sign. -/
def exFragUrl : Url := { exUrl with fragment := some "" }

/-! Helper lemmas about the cache primitives. -/

theorem alookup_alistInsert_self (l : List (Url × StatusVal)) (k : Url) (v : StatusVal) :
    alookup (alistInsert l k v) k = some v := by
  induction l with
  | nil => simp [alistInsert, alookup]
  | cons p rest ih =>
    obtain ⟨k', v'⟩ := p
    by_cases h : k = k'
    · simp [alistInsert, h, alookup]
    · simp [alistInsert, h, alookup, ih]

theorem alookup_alistInsert_ne (l : List (Url × StatusVal)) (k u : Url) (v : StatusVal)
    (h : u ≠ k) : alookup (alistInsert l k v) u = alookup l u := by
  induction l with
  | nil => simp [alistInsert, alookup, h]
  | cons p rest ih =>
    obtain ⟨k', v'⟩ := p
    by_cases hk : k = k'
    · subst hk
      simp [alistInsert, alookup, h]
    · simp only [alistInsert, if_neg hk, alookup]
      by_cases hu : u = k'
      · simp [hu]
      · simp [hu, ih]

theorem mem_insertSet_iff (l : List Url) (k u : Url) :
    u ∈ insertSet l k ↔ u = k ∨ u ∈ l := by
  unfold insertSet
  split_ifs with h
  · constructor
    · exact Or.inr
    · rintro (rfl | hu)
      · exact h
      · exact hu
  · simp [List.mem_cons]

theorem mem_insertSet_self (l : List Url) (k : Url) : k ∈ insertSet l k :=
  (mem_insertSet_iff l k k).mpr (Or.inl rfl)

theorem mem_insertSet_of_mem (l : List Url) (k u : Url) (h : u ∈ l) :
    u ∈ insertSet l k :=
  (mem_insertSet_iff l k u).mpr (Or.inr h)

theorem classify_outcome_params (st : CheckerState) (url : Url) (net : NetOutcome) :
    ((classify_outcome st url net).2).deadlink_params = st.deadlink_params := by
  cases net <;> simp only [classify_outcome] <;> split_ifs <;> rfl

theorem check_url_params (st : CheckerState) (url : Url) (net : NetOutcome) :
    ((check_url st url net).2).deadlink_params = st.deadlink_params := by
  unfold check_url
  split_ifs <;> first | rfl | exact classify_outcome_params st url net

theorem check_extlink_params (st : CheckerState) (parsed : Option Url)
    (f : Option DeadLinkFlag) (net : NetOutcome) :
    ((check_extlink_status st parsed f net).1).deadlink_params = st.deadlink_params := by
  unfold check_extlink_status
  split
  · rfl
  next url heq =>
    have hparams := check_url_params st url net
    split <;> rename_i st2 heq2 <;> rw [heq2] at hparams <;> exact hparams

theorem check_url_miss (st : CheckerState) (url : Url) (net : NetOutcome)
    (h1 : url ∉ st.cache_valid_urls)
    (h2 : alookup st.cache_invalid_urls url = none)
    (h3 : url ∉ st.cache_indeterminate_urls) :
    check_url st url net = classify_outcome st url net := by
  unfold check_url
  rw [if_neg h1, if_neg (by simp [h2]), if_neg h3]

/-- C1: for a URL in no cache partition, `check_url` maps an HTTP response
status in the range 200 to 299 to True (Valid) and inserts the URL into the
valid partition; a status in 400 to 499 to False (Invalid) recording the
numeric status code for the URL in the invalid partition; and any other
status to None (Indeterminate), inserting the URL into the indeterminate
partition. -/
theorem c1_status_mapping (st : CheckerState) (url : Url) (c : Nat)
    (h1 : url ∉ st.cache_valid_urls)
    (h2 : alookup st.cache_invalid_urls url = none)
    (h3 : url ∉ st.cache_indeterminate_urls) :
    (200 ≤ c ∧ c < 300 →
      check_url st url (NetOutcome.response c) =
        (some true, { st with cache_valid_urls := insertSet st.cache_valid_urls url }) ∧
      url ∈ insertSet st.cache_valid_urls url) ∧
    (400 ≤ c ∧ c < 500 →
      check_url st url (NetOutcome.response c) =
        (some false,
          { st with cache_invalid_urls :=
              alistInsert st.cache_invalid_urls url (StatusVal.code c) }) ∧
      alookup (alistInsert st.cache_invalid_urls url (StatusVal.code c)) url =
        some (StatusVal.code c)) ∧
    (¬ (200 ≤ c ∧ c < 300) → ¬ (400 ≤ c ∧ c < 500) →
      check_url st url (NetOutcome.response c) =
        (none,
          { st with cache_indeterminate_urls :=
              insertSet st.cache_indeterminate_urls url }) ∧
      url ∈ insertSet st.cache_indeterminate_urls url) := by
  have hm := check_url_miss st url (NetOutcome.response c) h1 h2 h3
  refine ⟨fun hc => ?_, fun hc => ?_, fun hc1 hc2 => ?_⟩
  · rw [hm]
    simp only [classify_outcome]
    rw [if_pos hc]
    exact ⟨rfl, mem_insertSet_self _ _⟩
  · rw [hm]
    simp only [classify_outcome]
    rw [if_neg (by omega : ¬ (200 ≤ c ∧ c < 300)), if_pos hc]
    exact ⟨rfl, alookup_alistInsert_self _ _ _⟩
  · rw [hm]
    simp only [classify_outcome]
    rw [if_neg hc1, if_neg hc2]
    exact ⟨rfl, mem_insertSet_self _ _⟩

/-- C1 witness: at a fresh state, a 404 response yields False and caches
the numeric code 404 for the URL. -/
theorem c1_status_mapping_witness :
    check_url (initState exDate) exUrl (NetOutcome.response 404) =
      (some false,
        { initState exDate with
            cache_invalid_urls :=
              alistInsert (initState exDate).cache_invalid_urls exUrl (StatusVal.code 404) }) ∧
    alookup (alistInsert (initState exDate).cache_invalid_urls exUrl (StatusVal.code 404)) exUrl =
      some (StatusVal.code 404) :=
  (c1_status_mapping (initState exDate) exUrl 404 (by decide) (by decide) (by decide)).2.1
    (by omega)

/-- C2: for a URL in no cache partition, request failures are classified
as the source does: a TLS failure yields False and caches the text
"SSL error"; a connection failure whose lowercased message contains the
name-resolution phrase yields False and caches "domain name not resolved";
any other connection failure (connection timeouts included) yields None and
leaves the whole state unchanged; a too-many-redirects failure yields False
and caches "too many redirects"; any other request-level failure yields
None and leaves the state unchanged.  The constructors of `NetOutcome` are
mutually exclusive, mirroring Python's most-specific-first except-clause
dispatch. -/
theorem c2_error_classification (st : CheckerState) (url : Url) (msg : String)
    (h1 : url ∉ st.cache_valid_urls)
    (h2 : alookup st.cache_invalid_urls url = none)
    (h3 : url ∉ st.cache_indeterminate_urls) :
    (check_url st url NetOutcome.sslError =
      (some false,
        { st with cache_invalid_urls :=
            alistInsert st.cache_invalid_urls url (StatusVal.str "SSL error") })) ∧
    (hasSubChars dnsPat (msg.toList.map Char.toLower) = true →
      check_url st url (NetOutcome.connectionError msg) =
        (some false,
          { st with cache_invalid_urls :=
              alistInsert st.cache_invalid_urls url (StatusVal.str "domain name not resolved") })) ∧
    (hasSubChars dnsPat (msg.toList.map Char.toLower) = false →
      check_url st url (NetOutcome.connectionError msg) = (none, st)) ∧
    (check_url st url NetOutcome.tooManyRedirects =
      (some false,
        { st with cache_invalid_urls :=
            alistInsert st.cache_invalid_urls url (StatusVal.str "too many redirects") })) ∧
    (check_url st url NetOutcome.requestException = (none, st)) := by
  refine ⟨?_, fun hd => ?_, fun hd => ?_, ?_, ?_⟩
  · rw [check_url_miss st url _ h1 h2 h3]
    simp only [classify_outcome]
  · rw [check_url_miss st url _ h1 h2 h3]
    simp only [classify_outcome]
    rw [if_pos hd]
  · rw [check_url_miss st url _ h1 h2 h3]
    simp only [classify_outcome]
    rw [if_neg (by simp [String.toList] at hd; simp [hd])]
  · rw [check_url_miss st url _ h1 h2 h3]
    simp only [classify_outcome]
  · rw [check_url_miss st url _ h1 h2 h3]
    simp only [classify_outcome]

/-- C2 witness: at a fresh state, a non-DNS connection failure (a
connection timeout) yields None and leaves the state unchanged. -/
theorem c2_error_classification_witness :
    check_url (initState exDate) exUrl (NetOutcome.connectionError "connection timed out") =
      (none, initState exDate) :=
  (c2_error_classification (initState exDate) exUrl "connection timed out"
      (by decide) (by decide) (by decide)).2.2.1 (by decide)

/-- C3: once a URL is recorded in a cache partition, every later
`check_url` call for it consults the partitions in the order valid,
invalid, indeterminate, returns the recorded verdict on the first hit, and
leaves the state unchanged; the network outcome argument is arbitrary and
unused, so no network call is performed. -/
theorem c3_cache_short_circuit (st : CheckerState) (url : Url) (net : NetOutcome) :
    (url ∈ st.cache_valid_urls → check_url st url net = (some true, st)) ∧
    (url ∉ st.cache_valid_urls → (alookup st.cache_invalid_urls url).isSome = true →
      check_url st url net = (some false, st)) ∧
    (url ∉ st.cache_valid_urls → alookup st.cache_invalid_urls url = none →
      url ∈ st.cache_indeterminate_urls → check_url st url net = (none, st)) := by
  refine ⟨fun h => ?_, fun h1 h2 => ?_, fun h1 h2 h3 => ?_⟩
  · unfold check_url
    rw [if_pos h]
  · unfold check_url
    rw [if_neg h1, if_pos h2]
  · unfold check_url
    rw [if_neg h1, if_neg (by simp [h2]), if_pos h3]

/-- C3 witness: with the URL recorded valid, a later call returns True and
the unchanged state even though the network outcome argument is a 500
response. -/
theorem c3_cache_short_circuit_witness :
    check_url
      { cache_valid_urls := [exUrl], cache_invalid_urls := [],
        cache_indeterminate_urls := [], deadlink_params := ("2020", "02", "20") }
      exUrl (NetOutcome.response 500) =
      (some true,
        { cache_valid_urls := [exUrl], cache_invalid_urls := [],
          cache_indeterminate_urls := [], deadlink_params := ("2020", "02", "20") }) :=
  (c3_cache_short_circuit _ exUrl (NetOutcome.response 500)).1 (by decide)

theorem alookup_alistInsert_of_some (l : List (Url × StatusVal)) (k u : Url) (v r : StatusVal)
    (hk : alookup l k = none) (hu : alookup l u = some r) :
    alookup (alistInsert l k v) u = some r := by
  have hne : u ≠ k := fun e => by rw [e, hk] at hu; exact Option.noConfusion hu
  rw [alookup_alistInsert_ne _ _ _ _ hne]
  exact hu

theorem disjoint_insert_invalid (st : CheckerState) (url : Url) (v : StatusVal)
    (h1 : url ∉ st.cache_valid_urls) (hdisj : CacheDisjoint st) :
    CacheDisjoint { st with cache_invalid_urls := alistInsert st.cache_invalid_urls url v } := by
  intro u hu
  have hu' : u ∈ st.cache_valid_urls := hu
  have hne : u ≠ url := fun e => h1 (e ▸ hu')
  show alookup (alistInsert st.cache_invalid_urls url v) u = none
  rw [alookup_alistInsert_ne _ _ _ _ hne]
  exact hdisj u hu'

theorem disjoint_insert_valid (st : CheckerState) (url : Url)
    (h2 : alookup st.cache_invalid_urls url = none) (hdisj : CacheDisjoint st) :
    CacheDisjoint { st with cache_valid_urls := insertSet st.cache_valid_urls url } := by
  intro u hu
  have hu' : u ∈ insertSet st.cache_valid_urls url := hu
  show alookup st.cache_invalid_urls u = none
  rcases (mem_insertSet_iff _ _ _).mp hu' with rfl | h
  · exact h2
  · exact hdisj u h

theorem disjoint_insert_indet (st : CheckerState) (url : Url) (hdisj : CacheDisjoint st) :
    CacheDisjoint { st with cache_indeterminate_urls := insertSet st.cache_indeterminate_urls url } := by
  intro u hu
  exact hdisj u hu

/-- C7: the valid and invalid partitions never hold the same URL: the
initial state is disjoint, and `check_url` preserves disjointness on every
outcome path (cache hits change nothing; a miss adds the URL to at most one
partition, and only when it is absent from the other). -/
theorem c7_partitions_disjoint (now : RunDate) :
    CacheDisjoint (initState now) ∧
    ∀ (st : CheckerState) (url : Url) (net : NetOutcome),
      CacheDisjoint st → CacheDisjoint ((check_url st url net).2) := by
  constructor
  · intro u hu
    simp [initState] at hu
  · intro st url net hdisj
    unfold check_url
    split_ifs with h1 h2 h3
    · exact hdisj
    · exact hdisj
    · exact hdisj
    · have h2' : alookup st.cache_invalid_urls url = none := by
        simpa using h2
      cases net with
      | response code =>
        simp only [classify_outcome]
        split_ifs with hr1 hr2
        · exact disjoint_insert_valid st url h2' hdisj
        · exact disjoint_insert_invalid st url _ h1 hdisj
        · exact disjoint_insert_indet st url hdisj
      | sslError => exact disjoint_insert_invalid st url _ h1 hdisj
      | connectionError msg =>
        simp only [classify_outcome]
        split_ifs with hdns
        · exact disjoint_insert_invalid st url _ h1 hdisj
        · exact hdisj
      | tooManyRedirects => exact disjoint_insert_invalid st url _ h1 hdisj
      | requestException => exact hdisj

/-- C7 witness: disjointness holds after an SSL-error check starting from
the empty initial state. -/
theorem c7_partitions_disjoint_witness :
    CacheDisjoint ((check_url (initState exDate) exUrl NetOutcome.sslError).2) :=
  (c7_partitions_disjoint exDate).2 (initState exDate) exUrl NetOutcome.sslError
    (fun u hu => absurd hu (List.not_mem_nil u))

theorem classify_outcome_preserves (st : CheckerState) (url u : Url) (net : NetOutcome)
    (hmiss : alookup st.cache_invalid_urls url = none) :
    (u ∈ st.cache_valid_urls → u ∈ ((classify_outcome st url net).2).cache_valid_urls) ∧
    (∀ r, alookup st.cache_invalid_urls u = some r →
      alookup ((classify_outcome st url net).2).cache_invalid_urls u = some r) ∧
    (u ∈ st.cache_indeterminate_urls → u ∈ ((classify_outcome st url net).2).cache_indeterminate_urls) := by
  cases net with
  | response code =>
    simp only [classify_outcome]
    split_ifs with hr1 hr2
    · exact ⟨fun h => mem_insertSet_of_mem _ _ _ h, fun r h => h, fun h => h⟩
    · exact ⟨fun h => h, fun r h => alookup_alistInsert_of_some _ _ _ _ _ hmiss h, fun h => h⟩
    · exact ⟨fun h => h, fun r h => h, fun h => mem_insertSet_of_mem _ _ _ h⟩
  | sslError =>
    exact ⟨fun h => h, fun r h => alookup_alistInsert_of_some _ _ _ _ _ hmiss h, fun h => h⟩
  | connectionError msg =>
    simp only [classify_outcome]
    split_ifs with hdns
    · exact ⟨fun h => h, fun r h => alookup_alistInsert_of_some _ _ _ _ _ hmiss h, fun h => h⟩
    · exact ⟨fun h => h, fun r h => h, fun h => h⟩
  | tooManyRedirects =>
    exact ⟨fun h => h, fun r h => alookup_alistInsert_of_some _ _ _ _ _ hmiss h, fun h => h⟩
  | requestException => exact ⟨fun h => h, fun r h => h, fun h => h⟩

/-- C10: `check_url` never removes or overwrites an existing cache entry:
when the checked URL is already in some partition the state is returned
unchanged, and for every URL every call preserves valid-partition
membership, the exact invalid-partition binding, and indeterminate-
partition membership. -/
theorem c10_cache_entries_stable (st : CheckerState) (url u : Url) (net : NetOutcome) :
    ((url ∈ st.cache_valid_urls ∨ (alookup st.cache_invalid_urls url).isSome = true ∨
        url ∈ st.cache_indeterminate_urls) →
      (check_url st url net).2 = st) ∧
    (u ∈ st.cache_valid_urls → u ∈ ((check_url st url net).2).cache_valid_urls) ∧
    (∀ r, alookup st.cache_invalid_urls u = some r →
      alookup ((check_url st url net).2).cache_invalid_urls u = some r) ∧
    (u ∈ st.cache_indeterminate_urls → u ∈ ((check_url st url net).2).cache_indeterminate_urls) := by
  unfold check_url
  split_ifs with h1 h2 h3
  · exact ⟨fun _ => rfl, fun h => h, fun r h => h, fun h => h⟩
  · exact ⟨fun _ => rfl, fun h => h, fun r h => h, fun h => h⟩
  · exact ⟨fun _ => rfl, fun h => h, fun r h => h, fun h => h⟩
  · have h2' : alookup st.cache_invalid_urls url = none := by
      simpa using h2
    have hp := classify_outcome_preserves st url u net h2'
    refine ⟨fun hcached => ?_, hp.1, hp.2.1, hp.2.2⟩
    rcases hcached with h | h | h
    · exact absurd h h1
    · rw [h2'] at h
      simp at h
    · exact absurd h h3

/-- C10 witness: a call for a URL already recorded valid leaves the whole
state unchanged. -/
theorem c10_cache_entries_stable_witness :
    (check_url
        { cache_valid_urls := [exUrl], cache_invalid_urls := [],
          cache_indeterminate_urls := [], deadlink_params := ("2020", "02", "20") }
        exUrl NetOutcome.requestException).2 =
      { cache_valid_urls := [exUrl], cache_invalid_urls := [],
        cache_indeterminate_urls := [], deadlink_params := ("2020", "02", "20") } :=
  (c10_cache_entries_stable _ exUrl exUrl NetOutcome.requestException).1 (Or.inl (by decide))

/-- C4: `prepare_url` rejects every URL whose text failed to parse (the
LocationParseError case, e.g. a non-numeric port), whose scheme is not http
or https, whose host is absent or empty, whose host contains no dot, whose
host is localhost or ends in ".localhost", or whose host is an IP address
in the loopback block 127.0.0.0/8: the result is `none`, and
`check_extlink_status` for such a link makes no cache change and leaves the
adjacent markup untouched for every state and network outcome (so no
network call is modelled either: the outcome argument is irrelevant). -/
theorem c4_reject (parsed : Option Url)
    (h : parsed = none ∨ ∃ u : Url, parsed = some u ∧
      (¬ (u.scheme = some "http" ∨ u.scheme = some "https") ∨
       hostFalsy u.host = true ∨
       ¬ '.' ∈ (u.host.getD "").toList ∨
       u.host.getD "" = "localhost" ∨
       endsChars lhLoc (u.host.getD "").toList = true ∨
       isLoopback (u.host.getD "") = true)) :
    prepare_url parsed = none ∧
    ∀ (st : CheckerState) (f : Option DeadLinkFlag) (net : NetOutcome),
      check_extlink_status st parsed f net = (st, f) := by
  have hmain : prepare_url parsed = none := by
    rcases h with rfl | ⟨u, rfl, hbad⟩
    · rfl
    · simp only [prepare_url]
      split_ifs with h1 h2 h3 h4 h5 <;> try rfl
      exfalso
      rcases hbad with hb | hb | hb | hb | hb | hb
      · exact hb h1
      · exact h2 hb
      · exact hb h3
      · exact h4 (Or.inl hb)
      · exact h4 (Or.inr hb)
      · exact h5 hb
  refine ⟨hmain, fun st f net => ?_⟩
  unfold check_extlink_status
  rw [hmain]

/-- C4 witness: the ftp-scheme URL is rejected and checking it changes
nothing. -/
theorem c4_reject_witness :
    prepare_url (some ftpUrl) = none ∧
    check_extlink_status (initState exDate) (some ftpUrl) none NetOutcome.sslError =
      (initState exDate, none) := by
  have h := c4_reject (some ftpUrl) (Or.inr ⟨ftpUrl, rfl, Or.inl (by decide)⟩)
  exact ⟨h.1, h.2 (initState exDate) none NetOutcome.sslError⟩

theorem stripFragment_path_query (u : Url) :
    (stripFragment u).path = u.path ∧ (stripFragment u).query = u.query := by
  obtain ⟨s, a, ho, po, pa, q, fr⟩ := u
  cases fr with
  | none => exact ⟨rfl, rfl⟩
  | some f =>
    simp only [stripFragment]
    split_ifs <;> exact ⟨rfl, rfl⟩

theorem stripFragment_of_plain (u : Url) (hf : plainFrag u.fragment) :
    stripFragment u = { u with fragment := none } := by
  obtain ⟨s, a, ho, po, pa, q, fr⟩ := u
  cases fr with
  | none => rfl
  | some f =>
    have hf' : f ≠ "" ∧ ¬ '#' ∈ f.toList := hf
    simp only [stripFragment]
    rw [if_neg hf'.1, if_neg hf'.2]

theorem prepare_url_accepts (u : Url)
    (hs : u.scheme = some "http" ∨ u.scheme = some "https")
    (hh : hostFalsy u.host = false)
    (hd : '.' ∈ (u.host.getD "").toList)
    (hl : ¬ (u.host.getD "" = "localhost" ∨ endsChars lhLoc (u.host.getD "").toList = true))
    (hip : isLoopback (u.host.getD "") = false) :
    prepare_url (some u) = some (stripFragment u) := by
  simp only [prepare_url]
  rw [if_neg (not_not_intro hs), if_neg (by simp [hh]), if_neg (not_not_intro hd), if_neg hl,
    if_neg (by simp [hip])]

/-- C5 counterexample: the two URLs below differ only in their fragment
component (the first carries the empty fragment of a trailing hash sign,
the second none), yet `prepare_url` maps them to different CanonicalURLs,
because the source strips the fragment only when it is truthy. -/
theorem c5_counterexample :
    ({ exUrl with fragment := some "" } : Url).scheme = exUrl.scheme ∧
    ({ exUrl with fragment := some "" } : Url).auth = exUrl.auth ∧
    ({ exUrl with fragment := some "" } : Url).host = exUrl.host ∧
    ({ exUrl with fragment := some "" } : Url).port = exUrl.port ∧
    ({ exUrl with fragment := some "" } : Url).path = exUrl.path ∧
    ({ exUrl with fragment := some "" } : Url).query = exUrl.query ∧
    prepare_url (some { exUrl with fragment := some "" }) ≠ prepare_url (some exUrl) := by
  refine ⟨rfl, rfl, rfl, rfl, rfl, rfl, ?_⟩
  decide

/-- C5 (amended): two parsed URLs that differ only in their fragment yield
the same CanonicalURL provided neither fragment is the empty string and
neither contains a hash sign (for such plain fragments the stripping step
removes the fragment entirely); and for every accepted URL the path and
query components are preserved verbatim. -/
theorem c5_fragment_invariance (u : Url) (f2 : Option String)
    (h1 : plainFrag u.fragment) (h2 : plainFrag f2) :
    prepare_url (some { u with fragment := f2 }) = prepare_url (some u) ∧
    ∀ v w : Url, prepare_url (some v) = some w → w.path = v.path ∧ w.query = v.query := by
  constructor
  · have e1 : stripFragment { u with fragment := f2 } = { u with fragment := none } :=
      stripFragment_of_plain _ h2
    have e2 : stripFragment u = { u with fragment := none } := stripFragment_of_plain u h1
    obtain ⟨s, a, ho, po, pa, q, fr⟩ := u
    simp only [prepare_url]
    dsimp only at e1 e2 ⊢
    split_ifs <;> try rfl
    rw [e1, e2]
  · intro v w hvw
    simp only [prepare_url] at hvw
    split_ifs at hvw
    injection hvw with hw
    rw [← hw]
    exact stripFragment_path_query v

/-- C5 amended witness: a URL with fragment "sec" and the same URL without
a fragment normalize identically. -/
theorem c5_fragment_invariance_witness :
    prepare_url (some { exUrl with fragment := some "sec" }) = prepare_url (some exUrl) :=
  (c5_fragment_invariance exUrl (some "sec") True.intro ⟨by decide, by decide⟩).1

/-- C9: `prepare_url` strips the fragment only when it is truthy: an
accepted URL whose fragment is the empty string (a raw text ending in a
hash sign) is returned with that empty fragment intact, and therefore
differs as a cache key from the same URL with no fragment at all. -/
theorem c9_empty_fragment_kept (u : Url)
    (hs : u.scheme = some "http" ∨ u.scheme = some "https")
    (hh : hostFalsy u.host = false)
    (hd : '.' ∈ (u.host.getD "").toList)
    (hl : ¬ (u.host.getD "" = "localhost" ∨ endsChars lhLoc (u.host.getD "").toList = true))
    (hip : isLoopback (u.host.getD "") = false)
    (hf : u.fragment = some "") :
    prepare_url (some u) = some u ∧
    prepare_url (some { u with fragment := none }) = some { u with fragment := none } ∧
    prepare_url (some u) ≠ prepare_url (some { u with fragment := none }) := by
  have e1 : stripFragment u = u := by
    unfold stripFragment
    rw [hf]
    rfl
  have e2 : prepare_url (some u) = some u := by
    rw [prepare_url_accepts u hs hh hd hl hip, e1]
  have e3 : prepare_url (some { u with fragment := none }) = some { u with fragment := none } :=
    prepare_url_accepts { u with fragment := none } hs hh hd hl hip
  refine ⟨e2, e3, ?_⟩
  rw [e2, e3]
  intro hcontra
  injection hcontra with hu
  have hfr : u.fragment = ({ u with fragment := none } : Url).fragment := by rw [hu]
  rw [hf] at hfr
  simp at hfr

/-- C9 witness: the example URL with an empty fragment is kept as is and
differs as a cache key from its fragmentless form. -/
theorem c9_empty_fragment_kept_witness :
    prepare_url (some exFragUrl) = some exFragUrl ∧
    prepare_url (some { exFragUrl with fragment := none }) =
      some { exFragUrl with fragment := none } ∧
    prepare_url (some exFragUrl) ≠ prepare_url (some { exFragUrl with fragment := none }) :=
  c9_empty_fragment_kept exFragUrl (by decide) (by decide) (by decide) (by decide) (by decide)
    (by decide)

/-- C6: when `check_extlink_status` annotates a link with an Invalid
verdict and an adjacent marker exists, a recorded status equal to the
stringified cached reason leaves the marker (its date fields included)
completely untouched, while a differing or absent status field rewrites
the status and all three date parameters with the current run's values. -/
theorem c6_marker_update (st : CheckerState) (parsed : Option Url) (url : Url)
    (net : NetOutcome) (f : DeadLinkFlag) (r : StatusVal) (st2 : CheckerState)
    (hp : prepare_url parsed = some url)
    (hc : check_url st url net = (some false, st2))
    (hr : alookup st2.cache_invalid_urls url = some r) :
    (f.status = some r.toStr →
      check_extlink_status st parsed (some f) net = (st2, some f)) ∧
    (f.status ≠ some r.toStr →
      check_extlink_status st parsed (some f) net =
        (st2, some { status := some r.toStr, p1 := st2.deadlink_params.1,
                     p2 := st2.deadlink_params.2.1, p3 := st2.deadlink_params.2.2 })) := by
  have hred : check_extlink_status st parsed (some f) net =
      (st2, some (flag_invalid (some f)
        ((alookup st2.cache_invalid_urls url).getD (StatusVal.str "")) st2.deadlink_params)) := by
    unfold check_extlink_status
    split
    · next heq =>
        rw [hp] at heq
        exact Option.noConfusion heq
    next url2 heq =>
      rw [hp] at heq
      injection heq with he
      subst he
      split
      · next st3 heq2 =>
          rw [hc] at heq2
          injection heq2 with h1 h2
          simp at h1
      · next st3 heq2 =>
          rw [hc] at heq2
          injection heq2 with h1 h2
          subst h2
          rfl
      · next st3 heq2 =>
          rw [hc] at heq2
          injection heq2 with h1 h2
          exact Option.noConfusion h1
  constructor
  · intro hstat
    rw [hred, hr]
    simp [flag_invalid, ensure_flagged, hstat]
  · intro hstat
    rw [hred, hr]
    cases hst : f.status with
    | none => simp [flag_invalid, ensure_flagged, hst]
    | some s =>
      have hs : s ≠ r.toStr := fun e => hstat (by rw [hst, e])
      simp [flag_invalid, ensure_flagged, hst, hs]

/-- C6 witness: an existing marker whose status already reads "SSL error"
survives a second SSL-error check with its 2019 date fields intact. -/
theorem c6_marker_update_witness :
    check_extlink_status (initState exDate) (some exUrl)
        (some { status := some "SSL error", p1 := "2019", p2 := "01", p3 := "01" })
        NetOutcome.sslError =
      ({ cache_valid_urls := [], cache_invalid_urls := [(exUrl, StatusVal.str "SSL error")],
         cache_indeterminate_urls := [], deadlink_params := ("2020", "02", "20") },
       some { status := some "SSL error", p1 := "2019", p2 := "01", p3 := "01" }) :=
  (c6_marker_update (initState exDate) (some exUrl) exUrl NetOutcome.sslError
      { status := some "SSL error", p1 := "2019", p2 := "01", p3 := "01" }
      (StatusVal.str "SSL error")
      { cache_valid_urls := [], cache_invalid_urls := [(exUrl, StatusVal.str "SSL error")],
        cache_indeterminate_urls := [], deadlink_params := ("2020", "02", "20") }
      (by decide) (by decide) (by decide)).1 rfl

/-- C8: the marker date parameters are computed exactly once, at checker
construction, from the construction time; a whole run never changes them;
and every call either leaves the adjacent marker untouched, removes it, or
writes a marker carrying exactly the state's date parameters — so all
markers written in one run carry the construction-time values. -/
theorem c8_run_dates_consistent (now : RunDate) :
    (initState now).deadlink_params =
      (format02d now.year, format02d now.month, format02d now.day) ∧
    (∀ (st : CheckerState) (evs : List (Option Url × Option DeadLinkFlag × NetOutcome)),
      (runChecker st evs).deadlink_params = st.deadlink_params) ∧
    (∀ (st : CheckerState) (parsed : Option Url) (f : Option DeadLinkFlag) (net : NetOutcome),
      (check_extlink_status st parsed f net).2 = f ∨
      (check_extlink_status st parsed f net).2 = none ∨
      ∃ g : DeadLinkFlag, (check_extlink_status st parsed f net).2 = some g ∧
        g.p1 = st.deadlink_params.1 ∧ g.p2 = st.deadlink_params.2.1 ∧
        g.p3 = st.deadlink_params.2.2) := by
  refine ⟨rfl, ?_, ?_⟩
  · intro st evs
    induction evs generalizing st with
    | nil => rfl
    | cons e rest ih =>
      show (runChecker (check_extlink_status st e.1 e.2.1 e.2.2).1 rest).deadlink_params =
        st.deadlink_params
      rw [ih]
      exact check_extlink_params st e.1 e.2.1 e.2.2
  · intro st parsed f net
    unfold check_extlink_status
    split
    · exact Or.inl rfl
    next url heq =>
      have hparams := check_url_params st url net
      split
      · next st2 heq2 => exact Or.inr (Or.inl rfl)
      · next st2 heq2 =>
          rw [heq2] at hparams
          have hp2 : st2.deadlink_params = st.deadlink_params := hparams
          cases f with
          | none =>
            refine Or.inr (Or.inr ⟨_, rfl, ?_, ?_, ?_⟩) <;>
              simp [flag_invalid, ensure_flagged, hp2]
          | some f0 =>
            obtain ⟨ost, d1, d2, d3⟩ := f0
            cases ost with
            | none =>
              refine Or.inr (Or.inr ⟨_, rfl, ?_, ?_, ?_⟩) <;>
                simp [flag_invalid, ensure_flagged, hp2]
            | some s =>
              by_cases hsr :
                s = ((alookup st2.cache_invalid_urls url).getD (StatusVal.str "")).toStr
              · refine Or.inl ?_
                simp [flag_invalid, ensure_flagged, hsr]
              · refine Or.inr (Or.inr ⟨_, rfl, ?_, ?_, ?_⟩) <;>
                  simp [flag_invalid, ensure_flagged, hsr, hp2]
      · next st2 heq2 => exact Or.inl rfl
